import Mathlib

/-!
# RustMVC dispatch engine — formal model

A shallow embedding of the request-dispatch core of the `rustmvc` crate
(`src/lib.rs`, `src/authentication.rs`), together with the authentication
middleware registered by `examples/authentication.rs`.

Modelling conventions:
* Rust `HashMap<String, String>` becomes an association list.
* Request body bytes (`Vec<u8>`) become `List Nat`; only the length is ever
  inspected by the code under study.
* Handlers and middlewares in Rust may print to stdout (the default logging
  middleware does); that observable output is made explicit as a `Trace`
  (a list of emitted lines) paired with the returned `ActionResult`.
* JWT handling (`jsonwebtoken::encode/decode`) is an external crate; it is
  modelled at its interface: a token carries its claims, the secret it was
  signed with, and a well-formedness flag (`wellFormed := false` stands for a
  string that fails JWT parsing).  `Utc::now()` becomes an explicit `now`
  argument.  Header values are modelled as such tokens, since the code under
  study only ever reads the `Authorization` header as a bearer token.
-/

namespace RustMVC

/-- Http methods, from `enum HttpMethod` in `src/lib.rs`. -/
inductive HttpMethod where
  | GET | POST | PUT | DELETE | PATCH | OPTIONS | HEAD | TRACE | CONNECT
  | NotSupported
deriving DecidableEq, Repr

/-- Route rules, from `enum RouteRules` in `src/lib.rs`. -/
inductive RouteRules where
  | Authorize : RouteRules
  | AllowAnonymous : RouteRules
  | Roles : List String → RouteRules
  | RequestSizeLimit : Nat → RouteRules
deriving DecidableEq, Repr

/-- JWT claims, from `struct Claims` in `src/authentication.rs`
(`sub`, `roles`, `exp` as a unix timestamp). -/
structure Claims where
  sub : String
  roles : List String
  exp : Nat
deriving DecidableEq, Repr

/-- A JWT as seen at the `jsonwebtoken` interface: the claims it embeds, the
secret it was signed with, and whether it parses as a JWT at all.
`wellFormed := false` models an arbitrary string that is not a valid token. -/
structure Token where
  claims : Claims
  secret : String
  wellFormed : Bool
deriving DecidableEq, Repr

/-- Verification errors of the `jsonwebtoken` crate that matter here. -/
inductive AuthError where
  | Malformed | BadSignature | Expired
deriving DecidableEq, Repr

/-- `jsonwebtoken::encode` at its interface: sign the claims with the secret. -/
def encode (claims : Claims) (secret : String) : Token :=
  { claims := claims, secret := secret, wellFormed := true }

/-- `jsonwebtoken::decode` with `Validation::default()` at its interface:
fails `Malformed` if the token does not parse, `BadSignature` if it was signed
with a different secret, `Expired` if the current time exceeds the embedded
expiry; otherwise returns the embedded claims. -/
def decode (token : Token) (secret : String) (now : Nat) : Except AuthError Claims :=
  if !token.wellFormed then .error .Malformed
  else if token.secret ≠ secret then .error .BadSignature
  else if token.claims.exp < now then .error .Expired
  else .ok token.claims

/-- `struct AuthConfig` in `src/authentication.rs`. -/
structure AuthConfig where
  secret : String
deriving DecidableEq, Repr

/-- `AuthConfig::generate_token`: embeds subject, roles and the absolute
expiry `now + expires_in_secs`, signed with the config's secret. -/
def AuthConfig.generate_token (cfg : AuthConfig) (sub : String) (roles : List String)
    (expires_in_secs : Nat) (now : Nat) : Token :=
  encode { sub := sub, roles := roles, exp := now + expires_in_secs } cfg.secret

/-- `AuthConfig::validate_token`: decode against the config's secret. -/
def AuthConfig.validate_token (cfg : AuthConfig) (token : Token) (now : Nat) :
    Except AuthError Claims :=
  decode token cfg.secret now

/-- `struct User` in `src/lib.rs`: the authenticated identity. -/
structure User where
  name : String
  roles : List String
deriving DecidableEq, Repr

/-- `struct RequestContext` in `src/lib.rs`. -/
structure RequestContext where
  params : List (String × String)
  headers : List (String × Token)
  path : String
  body : List Nat
  method : HttpMethod
  rules : List RouteRules
  user : Option User

/-- `enum ActionResult` in `src/lib.rs`.  `View` holds an `ArcRenderModel`
in Rust; the model reference itself is never inspected by the dispatch core,
so it is elided. -/
inductive ActionResult where
  | Html : String → ActionResult
  | View : ActionResult
  | Redirect : String → ActionResult
  | File : String → ActionResult
  | NotFound : ActionResult
  | PayloadTooLarge : String → ActionResult
  | UnAuthorized : String → ActionResult
  | Forbidden : String → ActionResult
  | Ok : String → ActionResult
  | BadRequest : String → ActionResult
deriving DecidableEq, Repr

/-- Observable stdout output of a handler or middleware. -/
abbrev Trace := List String

/-- `type ActionFn`: a handler takes the context and produces a result
(plus whatever it prints). -/
abbrev ActionFn := RequestContext → Trace × ActionResult

/-- `type MiddlewareFn`: a middleware takes the context and a continuation. -/
abbrev MiddlewareFn := RequestContext → ActionFn → Trace × ActionResult

/-- `struct Route` in `src/lib.rs`. -/
structure Route where
  path : String
  action : ActionFn
  rules : List RouteRules
  method : HttpMethod

/-- `struct Server` in `src/lib.rs`. -/
structure Server where
  routes : List Route
  middlewares : List MiddlewareFn
  auth_config : Option AuthConfig

/-- The response line printed by the default logging middleware for each
result kind (the `match &result` in `Server::new`). -/
def responseLog : ActionResult → String
  | .Html _ => "Response: Html"
  | .View => "Response: View"
  | .Redirect url => s!"Response: Redirect to {url}"
  | .File path => s!"Response: File {path}"
  | .NotFound => "Response: NotFound"
  | .PayloadTooLarge content => s!"Response: {content}"
  | .Forbidden content => s!"Response: {content}"
  | .UnAuthorized content => s!"Response: {content}"
  | .Ok content => s!"Response: {content}"
  | .BadRequest content => s!"Response: {content}"

/-- The default logging middleware installed by `Server::new`: prints request
details, invokes the continuation on the unchanged context, prints the
response kind, and passes the result through.  (The per-param and per-header
detail lines are elided; only the banner, path, response and footer lines are
kept, which is all the theorems inspect.) -/
def loggingMiddleware : MiddlewareFn := fun ctx next =>
  let r := next ctx
  (["--- Incoming Request ---", s!"Path: {ctx.path}"] ++ r.1
    ++ [responseLog r.2, "--- End of Request ---"], r.2)

/-- `Server::new`: no routes, the default logging middleware, no auth config. -/
def Server.new : Server :=
  { routes := [], middlewares := [loggingMiddleware], auth_config := none }

/-- `Server::add_middleware`: appended after the existing middlewares. -/
def Server.add_middleware (s : Server) (mw : MiddlewareFn) : Server :=
  { s with middlewares := s.middlewares ++ [mw] }

/-- `Server::add_route`: appended after the existing routes. -/
def Server.add_route (s : Server) (path : String) (action : ActionFn)
    (method : HttpMethod) (rules : List RouteRules) : Server :=
  { s with routes := s.routes ++
      [{ path := path, action := action, rules := rules, method := method }] }

/-- The route lookup inside `Server::handle_request`:
`self.routes.iter().find(|r| r.path == ctx.path && r.method == ctx.method)`. -/
def findRoute (routes : List Route) (path : String) (method : HttpMethod) : Option Route :=
  routes.find? (fun r => r.path == path && r.method == method)

/-- The `PayloadTooLarge` message format of `Server::handle_request`:
`"Request to route '<path>' exceeded the allowed size: <limit> bytes"` —
it contains the route path and the limit. -/
def sizeExceededMsg (routePath : String) (limit : Nat) : String :=
  s!"Request to route \x27{routePath}\x27 exceeded the allowed size: {limit} bytes"

/-- The rule loop of `Server::handle_request`: walk the route's rules in
order; a `RequestSizeLimit` whose limit the body length exceeds rejects with
`PayloadTooLarge`; every other rule is a no-op (`_ => ()`). -/
def checkRules (routePath : String) (body : List Nat) : List RouteRules → Option ActionResult
  | [] => none
  | .RequestSizeLimit limit :: rest =>
      if body.length > limit then
        some (.PayloadTooLarge (sizeExceededMsg routePath limit))
      else checkRules routePath body rest
  | _ :: rest => checkRules routePath body rest

/-- The middleware-composition loop of `Server::handle_request`: starting
from the route's action, wrap with each middleware in reverse registration
order, so the first registered middleware ends up outermost. -/
def composeMiddlewares (mws : List MiddlewareFn) (action : ActionFn) : ActionFn :=
  mws.foldr (fun mw next => fun ctx => mw ctx next) action

/-- `Server::handle_request`: find the route by exact path+method equality
(`NotFound` when absent), reject routes registered under the `NotSupported`
sentinel, run the rule loop (returning its rejection directly, before any
middleware is composed), and otherwise invoke the composed middleware chain
with the route's action innermost. -/
def Server.handle_request (s : Server) (ctx : RequestContext) : Trace × ActionResult :=
  match findRoute s.routes ctx.path ctx.method with
  | none => ([], .NotFound)
  | some route =>
    if route.method == HttpMethod.NotSupported then ([], .NotFound)
    else
      match checkRules route.path ctx.body route.rules with
      | some res => ([], res)
      | none => composeMiddlewares s.middlewares route.action ctx

/-- The request-context construction done by the transport glue in
`Server::start`: the rules attached to the context are those of the route
matched by the same path+method lookup (empty when no route matches), and
`user` starts out `None`. -/
def Server.mkContext (s : Server) (path : String) (method : HttpMethod)
    (headers : List (String × Token)) (params : List (String × String))
    (body : List Nat) : RequestContext :=
  let rules := match findRoute s.routes path method with
    | some r => r.rules
    | none => []
  { params := params, headers := headers, path := path, body := body,
    method := method, rules := rules, user := none }

/-- Full dispatch as driven by the transport: build the context, then
`handle_request`. -/
def Server.dispatch (s : Server) (path : String) (method : HttpMethod)
    (headers : List (String × Token)) (params : List (String × String))
    (body : List Nat) : Trace × ActionResult :=
  s.handle_request (s.mkContext path method headers params body)

/-- Case-sensitive lookup of a header value (actix's `HeaderMap::get` is
case-insensitive; all names in the code under study are written identically,
so an association-list lookup suffices). -/
def lookupHeader (headers : List (String × Token)) (name : String) : Option Token :=
  (headers.find? (fun kv => kv.1 == name)).map (·.2)

/-- The authentication middleware registered in `examples/authentication.rs`:
if the context's rules contain `Authorize`, read the `Authorization` header —
absent ⇒ `UnAuthorized "Missing token"`; present but failing
`validate_token` ⇒ `UnAuthorized "Invalid token"`; valid ⇒ populate
`ctx.user` from the token's claims and continue.  Without `Authorize` the
middleware just continues. -/
def authMiddleware (cfg : AuthConfig) (now : Nat) : MiddlewareFn := fun ctx next =>
  if ctx.rules.contains .Authorize then
    match lookupHeader ctx.headers "Authorization" with
    | some token =>
      match cfg.validate_token token now with
      | .ok claims => next { ctx with user := some { name := claims.sub, roles := claims.roles } }
      | .error _ => ([], .UnAuthorized "Invalid token")
    | none => ([], .UnAuthorized "Missing token")
  else next ctx

/-- Modelled from the spec: the segment matcher of the Route Registry
(spec §4.1).  `Server::get` and path-placeholder matching are called by
`examples/dynamic_routes.rs` but their implementation is absent from
`src/lib.rs` (whose `handle_request` compares whole path strings), so the
matcher is modelled from the spec's words: exact-segment matching where a
`\x7bname\x7d` pattern segment matches any path segment and captures its
literal value under `name`. -/
def isPlaceholder (seg : String) : Bool :=
  seg.data.head? == some (Char.ofNat 123) && seg.data.getLast? == some (Char.ofNat 125)

/-- Modelled from the spec: the placeholder's name is the text between the
braces. -/
def placeName (seg : String) : String :=
  (seg.drop 1).dropRight 1

/-- Modelled from the spec: match a pattern (as a list of segments) against a
request path (as a list of segments); literal segments must be equal, a
placeholder segment matches anything and captures the path segment's literal
value into the returned parameters mapping. -/
def segMatch : List String → List String → Option (List (String × String))
  | [], [] => some []
  | p :: ps, q :: qs =>
    match segMatch ps qs with
    | none => none
    | some caps =>
      if isPlaceholder p then some ((placeName p, q) :: caps)
      else if p = q then some caps
      else none
  | _, _ => none

/-! ## Helper lemmas -/

theorem composeMiddlewares_nil (a : ActionFn) : composeMiddlewares [] a = a := rfl

theorem composeMiddlewares_cons (mw : MiddlewareFn) (mws : List MiddlewareFn)
    (a : ActionFn) :
    composeMiddlewares (mw :: mws) a = fun ctx => mw ctx (composeMiddlewares mws a) := rfl

theorem handle_request_of_find_none (s : Server) (ctx : RequestContext)
    (h : findRoute s.routes ctx.path ctx.method = none) :
    s.handle_request ctx = ([], .NotFound) := by
  simp [Server.handle_request, h]

theorem handle_request_of_reject (s : Server) (ctx : RequestContext) (r : Route)
    (res : ActionResult)
    (hfind : findRoute s.routes ctx.path ctx.method = some r)
    (hns : r.method ≠ .NotSupported)
    (hrej : checkRules r.path ctx.body r.rules = some res) :
    s.handle_request ctx = ([], res) := by
  simp [Server.handle_request, hfind, hns, hrej]

theorem handle_request_of_pass (s : Server) (ctx : RequestContext) (r : Route)
    (hfind : findRoute s.routes ctx.path ctx.method = some r)
    (hns : r.method ≠ .NotSupported)
    (hpass : checkRules r.path ctx.body r.rules = none) :
    s.handle_request ctx = composeMiddlewares s.middlewares r.action ctx := by
  simp [Server.handle_request, hfind, hns, hpass]

theorem mkContext_rules (s : Server) (path : String) (method : HttpMethod)
    (headers : List (String × Token)) (params : List (String × String))
    (body : List Nat) (r : Route)
    (hfind : findRoute s.routes path method = some r) :
    (s.mkContext path method headers params body).rules = r.rules := by
  simp [Server.mkContext, hfind]

theorem findRoute_some_spec (routes : List Route) (path : String)
    (method : HttpMethod) (r : Route)
    (h : findRoute routes path method = some r) :
    r ∈ routes ∧ r.path = path ∧ r.method = method := by
  refine ⟨List.mem_of_find?_eq_some h, ?_, ?_⟩
  · have := List.find?_some h
    simp only [Bool.and_eq_true, beq_iff_eq] at this
    exact this.1
  · have := List.find?_some h
    simp only [Bool.and_eq_true, beq_iff_eq] at this
    exact this.2

theorem findRoute_isSome_of_mem (routes : List Route) (r : Route)
    (hmem : r ∈ routes) :
    (findRoute routes r.path r.method).isSome := by
  rw [findRoute, List.find?_isSome]
  exact ⟨r, hmem, by simp⟩

/-- A middleware that emits `pre`, invokes its continuation on the unchanged
context, emits `post` afterwards, and passes the result through — the generic
shape of a non-short-circuiting middleware with observable before/after
effects. -/
def wrapMW (pre post : Trace) : MiddlewareFn := fun ctx next =>
  let r := next ctx
  (pre ++ r.1 ++ post, r.2)

/-- A middleware that short-circuits: emits `t` and returns `res` without
invoking its continuation. -/
def shortMW (t : Trace) (res : ActionResult) : MiddlewareFn := fun _ _ => (t, res)

theorem checkRules_none_or_payload (path : String) (body : List Nat)
    (rules : List RouteRules) :
    checkRules path body rules = none ∨
      ∃ msg, checkRules path body rules = some (.PayloadTooLarge msg) := by
  induction rules with
  | nil => exact Or.inl rfl
  | cons rule rest ih =>
    cases rule with
    | RequestSizeLimit limit =>
      by_cases h : body.length > limit
      · right
        refine ⟨sizeExceededMsg path limit, ?_⟩
        simp [checkRules, h]
      · simpa [checkRules, h] using ih
    | Authorize => simpa [checkRules] using ih
    | AllowAnonymous => simpa [checkRules] using ih
    | Roles roles => simpa [checkRules] using ih

/-! ## Claim theorems -/

/-- C7: a token issued with time-to-live `t` at time `issueTime` verifies
successfully immediately after issuance (returning its embedded claims), and
verification fails with `Expired` exactly when the current time exceeds the
embedded absolute expiry `issueTime + t`. -/
theorem C7_token_ttl_expiry (cfg : AuthConfig) (sub : String) (roles : List String)
    (t issueTime : Nat) :
    cfg.validate_token (cfg.generate_token sub roles t issueTime) issueTime =
      .ok { sub := sub, roles := roles, exp := issueTime + t }
    ∧ ∀ now : Nat,
      (cfg.validate_token (cfg.generate_token sub roles t issueTime) now =
        .error .Expired ↔ issueTime + t < now) := by
  constructor
  · simp [AuthConfig.validate_token, AuthConfig.generate_token, encode, decode]
  · intro now
    simp only [AuthConfig.validate_token, AuthConfig.generate_token, encode, decode]
    by_cases h : issueTime + t < now <;> simp [h]

/-- C3: middleware registration order is execution order.  For middlewares
`A = wrapMW preA postA` and `B = wrapMW preB postB` composed in that order
around handler `H`, a passing request produces the trace
`preA ++ preB ++ H-trace ++ postB ++ postA` and `H`'s result; and if the
outer middleware short-circuits (returns without invoking its continuation),
the composed chain's output is the short-circuit output for every inner
middleware `B` and handler `H` — neither is ever executed. -/
theorem C3_middleware_order (preA postA preB postB t : Trace) (H : ActionFn)
    (B : MiddlewareFn) (res : ActionResult) (ctx : RequestContext) :
    composeMiddlewares [wrapMW preA postA, wrapMW preB postB] H ctx =
      (preA ++ preB ++ (H ctx).1 ++ postB ++ postA, (H ctx).2)
    ∧ composeMiddlewares [shortMW t res, B] H ctx = (t, res) := by
  constructor
  · simp [composeMiddlewares, wrapMW, List.append_assoc]
  · rfl

/-- C10: the core dispatcher enforces only `RequestSizeLimit`.  The rule loop
(`checkRules`) can only ever reject with `PayloadTooLarge`; `Authorize`,
`AllowAnonymous` and `Roles` rules are skipped by its catch-all arm; and every
dispatch outcome is `NotFound`, a `PayloadTooLarge` rejection, or exactly the
output of the composed middleware chain — so `UnAuthorized` and `Forbidden`
can only arise from a registered middleware or the route's handler. -/
theorem C10_dispatcher_only_size_limit :
    (∀ (path : String) (body : List Nat) (rules : List RouteRules),
      checkRules path body rules = none ∨
        ∃ msg, checkRules path body rules = some (.PayloadTooLarge msg))
    ∧ (∀ (path : String) (body : List Nat) (rules : List RouteRules),
        checkRules path body (.Authorize :: rules) = checkRules path body rules
        ∧ checkRules path body (.AllowAnonymous :: rules) = checkRules path body rules
        ∧ ∀ roles, checkRules path body (.Roles roles :: rules) =
            checkRules path body rules)
    ∧ ∀ (s : Server) (ctx : RequestContext),
        s.handle_request ctx = ([], .NotFound)
        ∨ (∃ msg, s.handle_request ctx = ([], .PayloadTooLarge msg))
        ∨ ∃ r, findRoute s.routes ctx.path ctx.method = some r
            ∧ s.handle_request ctx = composeMiddlewares s.middlewares r.action ctx := by
  refine ⟨?_, ?_, ?_⟩
  · exact checkRules_none_or_payload
  · intro path body rules
    exact ⟨rfl, rfl, fun _ => rfl⟩
  · intro s ctx
    rcases hfind : findRoute s.routes ctx.path ctx.method with _ | r
    · exact Or.inl (handle_request_of_find_none s ctx hfind)
    · by_cases hns : r.method = .NotSupported
      · refine Or.inl ?_
        simp [Server.handle_request, hfind, hns]
      · rcases hrej : checkRules r.path ctx.body r.rules with _ | res
        · exact Or.inr (Or.inr ⟨r, rfl, handle_request_of_pass s ctx r hfind hns hrej⟩)
        · have hres : ∃ msg, res = .PayloadTooLarge msg := by
            rcases checkRules_none_or_payload r.path ctx.body r.rules with h | ⟨msg, h⟩
            · rw [h] at hrej; cases hrej
            · rw [h] at hrej
              exact ⟨msg, by injection hrej with h2; exact h2.symm⟩
          rcases hres with ⟨msg, rfl⟩
          exact Or.inr (Or.inl ⟨msg, handle_request_of_reject s ctx r _ hfind hns hrej⟩)

/-- C1: route dispatch is exact path+method matching.  Under the spec's
registration invariant (no two routes share a path+method pair): (a) for
every registered route, the lookup returns that route iff the request path
and method both equal the route's path and method exactly; (b) a request
matching no registered route — in particular a path registered only under a
different method — yields `NotFound`; (c) a matched route (outside the
`NotSupported` sentinel) whose rules pass has its action run at the innermost
position of the middleware chain, producing the dispatch result. -/
theorem C1_exact_match_dispatch (s : Server) (ctx : RequestContext)
    (hdup : s.routes.Pairwise
      (fun r1 r2 => ¬(r1.path = r2.path ∧ r1.method = r2.method))) :
    (∀ r ∈ s.routes,
      (findRoute s.routes ctx.path ctx.method = some r ↔
        ctx.path = r.path ∧ ctx.method = r.method))
    ∧ ((∀ r ∈ s.routes, ¬(ctx.path = r.path ∧ ctx.method = r.method)) →
        s.handle_request ctx = ([], .NotFound))
    ∧ (∀ r, findRoute s.routes ctx.path ctx.method = some r →
        r.method ≠ .NotSupported →
        checkRules r.path ctx.body r.rules = none →
        s.handle_request ctx = composeMiddlewares s.middlewares r.action ctx) := by
  refine ⟨?_, ?_, ?_⟩
  · intro r hr
    constructor
    · intro h
      obtain ⟨_, hp, hm⟩ := findRoute_some_spec s.routes ctx.path ctx.method r h
      exact ⟨hp.symm, hm.symm⟩
    · rintro ⟨hp, hm⟩
      have hsome := findRoute_isSome_of_mem s.routes r hr
      rw [← hp, ← hm] at hsome
      obtain ⟨r2, hr2⟩ := Option.isSome_iff_exists.mp hsome
      obtain ⟨hmem2, hp2, hm2⟩ := findRoute_some_spec s.routes ctx.path ctx.method r2 hr2
      by_cases heq : r2 = r
      · rwa [heq] at hr2
      · have hsym : Symmetric
            (fun r1 r2 : Route => ¬(r1.path = r2.path ∧ r1.method = r2.method)) := by
          intro a b hab hcon
          exact hab ⟨hcon.1.symm, hcon.2.symm⟩
        have := hdup.forall hsym hmem2 hr heq
        exact absurd ⟨by rw [hp2, ← hp], by rw [hm2, ← hm]⟩ this
  · intro h
    rcases hf : findRoute s.routes ctx.path ctx.method with _ | r
    · exact handle_request_of_find_none s ctx hf
    · obtain ⟨hmem, hp, hm⟩ := findRoute_some_spec s.routes ctx.path ctx.method r hf
      exact absurd ⟨hp.symm, hm.symm⟩ (h r hmem)
  · intro r hf hns hpass
    exact handle_request_of_pass s ctx r hf hns hpass

/-- A demo handler used by the concrete witnesses below. -/
def helloAction : ActionFn := fun _ => (["hello handler ran"], .Ok "hello")

/-- The demo route registered by `demoServer`. -/
def demoRoute : Route :=
  { path := "/", action := helloAction, rules := [], method := .GET }

/-- A server with the default logging middleware and one `GET /` route. -/
def demoServer : Server := Server.new.add_route "/" helloAction .GET []

/-- A request context for `GET /` with no headers and an empty body. -/
def demoCtx : RequestContext :=
  { params := [], headers := [], path := "/", body := [], method := .GET,
    rules := [], user := none }

/-- Witness for C1 at a concrete server and request. -/
theorem C1_exact_match_dispatch_witness :
    findRoute demoServer.routes demoCtx.path demoCtx.method = some demoRoute
    ∧ demoServer.handle_request demoCtx =
        composeMiddlewares demoServer.middlewares demoRoute.action demoCtx := by
  have hdup : demoServer.routes.Pairwise
      (fun r1 r2 => ¬(r1.path = r2.path ∧ r1.method = r2.method)) := by
    simp [demoServer, Server.new, Server.add_route]
  have h := C1_exact_match_dispatch demoServer demoCtx hdup
  have hmem : demoRoute ∈ demoServer.routes := by
    simp [demoServer, demoRoute, Server.new, Server.add_route]
  have hfind := (h.1 demoRoute hmem).2 ⟨rfl, rfl⟩
  exact ⟨hfind, h.2.2 demoRoute hfind (by simp [demoRoute]) rfl⟩

/-- C2: placeholder routes match and capture.  For every pattern whose
segments are each either a placeholder or equal to the corresponding request
segment (with equal segment counts), `segMatch` succeeds, and every
placeholder's name is mapped to the literal value of the request segment at
its position in the returned parameters mapping. -/
theorem C2_placeholder_capture (pat path : List String)
    (hlen : pat.length = path.length)
    (hmatch : ∀ pr ∈ pat.zip path, isPlaceholder pr.1 = true ∨ pr.1 = pr.2) :
    ∃ caps, segMatch pat path = some caps ∧
      ∀ pr ∈ pat.zip path, isPlaceholder pr.1 = true → (placeName pr.1, pr.2) ∈ caps := by
  induction pat generalizing path with
  | nil =>
    cases path with
    | nil => exact ⟨[], rfl, by simp⟩
    | cons q qs => simp at hlen
  | cons p ps ih =>
    cases path with
    | nil => simp at hlen
    | cons q qs =>
      have hlen' : ps.length = qs.length := by simpa using hlen
      have hm' : ∀ pr ∈ ps.zip qs, isPlaceholder pr.1 = true ∨ pr.1 = pr.2 := by
        intro pr hpr
        exact hmatch pr (by simp [hpr])
      obtain ⟨caps, hc, hcap⟩ := ih qs hlen' hm'
      have hhead : isPlaceholder p = true ∨ p = q := by
        simpa using hmatch (p, q) (by simp)
      by_cases hph : isPlaceholder p = true
      · refine ⟨(placeName p, q) :: caps, by simp [segMatch, hc, hph], ?_⟩
        intro pr hpr hpl
        rcases List.mem_cons.mp (by simpa using hpr) with hpr1 | hpr2
        · rw [hpr1]
          exact List.mem_cons_self _ _
        · exact List.mem_cons_of_mem _ (hcap pr hpr2 hpl)
      · have hpq : p = q := by
          rcases hhead with h | h
          · exact absurd h hph
          · exact h
        subst hpq
        refine ⟨caps, by simp [segMatch, hc, hph], ?_⟩
        intro pr hpr hpl
        rcases List.mem_cons.mp (by simpa using hpr) with hpr1 | hpr2
        · rw [hpr1] at hpl
          exact absurd hpl hph
        · exact hcap pr hpr2 hpl

/-- Witness for C2 on the `/say_hello/\x7bname\x7d` pattern of
`examples/dynamic_routes.rs`, applied to `/say_hello/alice`. -/
theorem C2_placeholder_capture_witness :
    ∃ caps, segMatch ["say_hello", "\x7bname\x7d"] ["say_hello", "alice"] = some caps
      ∧ ∀ pr ∈ (["say_hello", "\x7bname\x7d"].zip ["say_hello", "alice"]),
          isPlaceholder pr.1 = true → (placeName pr.1, pr.2) ∈ caps :=
  C2_placeholder_capture ["say_hello", "\x7bname\x7d"] ["say_hello", "alice"]
    (by decide) (by decide)

theorem authMiddleware_missing_header (cfg : AuthConfig) (now : Nat)
    (ctx : RequestContext) (next : ActionFn)
    (hauth : RouteRules.Authorize ∈ ctx.rules)
    (hnone : lookupHeader ctx.headers "Authorization" = none) :
    authMiddleware cfg now ctx next = ([], .UnAuthorized "Missing token") := by
  have hc : ctx.rules.contains RouteRules.Authorize = true := by simpa using hauth
  simp only [authMiddleware, hc]
  simp [hnone]

theorem authMiddleware_invalid_token (cfg : AuthConfig) (now : Nat)
    (ctx : RequestContext) (next : ActionFn) (token : Token) (e : AuthError)
    (hauth : RouteRules.Authorize ∈ ctx.rules)
    (hsome : lookupHeader ctx.headers "Authorization" = some token)
    (herr : cfg.validate_token token now = .error e) :
    authMiddleware cfg now ctx next = ([], .UnAuthorized "Invalid token") := by
  have hc : ctx.rules.contains RouteRules.Authorize = true := by simpa using hauth
  simp only [authMiddleware, hc]
  simp [hsome, herr]

theorem authMiddleware_valid_token (cfg : AuthConfig) (now : Nat)
    (ctx : RequestContext) (next : ActionFn) (token : Token) (claims : Claims)
    (hauth : RouteRules.Authorize ∈ ctx.rules)
    (hsome : lookupHeader ctx.headers "Authorization" = some token)
    (hok : cfg.validate_token token now = .ok claims) :
    authMiddleware cfg now ctx next =
      next { ctx with user := some { name := claims.sub, roles := claims.roles } } := by
  have hc : ctx.rules.contains RouteRules.Authorize = true := by simpa using hauth
  simp only [authMiddleware, hc]
  simp [hsome, hok]

/-- With the middleware stack of `examples/authentication.rs` (default
logging middleware, then the authentication middleware), the dispatch result
of a matched, rule-passing request is the authentication middleware's output
with the route's action as its continuation. -/
theorem dispatch_auth_chain (cfg : AuthConfig) (now : Nat) (s : Server)
    (hmw : s.middlewares = [loggingMiddleware, authMiddleware cfg now])
    (path : String) (method : HttpMethod) (headers : List (String × Token))
    (params : List (String × String)) (body : List Nat) (r : Route)
    (hfind : findRoute s.routes path method = some r)
    (hns : r.method ≠ .NotSupported)
    (hpass : checkRules r.path body r.rules = none) :
    (s.dispatch path method headers params body).2 =
      (authMiddleware cfg now (s.mkContext path method headers params body) r.action).2 := by
  have h1 : s.handle_request (s.mkContext path method headers params body) =
      composeMiddlewares s.middlewares r.action
        (s.mkContext path method headers params body) :=
    handle_request_of_pass s _ r hfind hns hpass
  unfold Server.dispatch
  rw [h1, hmw]
  rfl

/-- C4: token-gated routes with the authentication middleware of
`examples/authentication.rs`.  For a matched, size-passing route carrying
`Authorize`: a request with no `Authorization` header yields
`UnAuthorized "Missing token"`; a request whose bearer token fails
verification yields `UnAuthorized "Invalid token"`; and a request whose
token verifies has the identity (subject and roles from the token's claims)
populated on the request context that the route's handler runs on, the
dispatch result being the handler's result on that enriched context. -/
theorem C4_require_authentication (cfg : AuthConfig) (now : Nat) (s : Server)
    (hmw : s.middlewares = [loggingMiddleware, authMiddleware cfg now])
    (path : String) (method : HttpMethod) (headers : List (String × Token))
    (params : List (String × String)) (body : List Nat) (r : Route)
    (hfind : findRoute s.routes path method = some r)
    (hns : r.method ≠ .NotSupported)
    (hpass : checkRules r.path body r.rules = none)
    (hauth : RouteRules.Authorize ∈ r.rules) :
    (lookupHeader headers "Authorization" = none →
      (s.dispatch path method headers params body).2 = .UnAuthorized "Missing token")
    ∧ (∀ token e, lookupHeader headers "Authorization" = some token →
        cfg.validate_token token now = .error e →
        (s.dispatch path method headers params body).2 = .UnAuthorized "Invalid token")
    ∧ (∀ token claims, lookupHeader headers "Authorization" = some token →
        cfg.validate_token token now = .ok claims →
        (s.dispatch path method headers params body).2 =
          (r.action { s.mkContext path method headers params body with
              user := some { name := claims.sub, roles := claims.roles } }).2) := by
  have hauthctx : RouteRules.Authorize ∈ (s.mkContext path method headers params body).rules := by
    rw [mkContext_rules s path method headers params body r hfind]
    exact hauth
  have hchain := dispatch_auth_chain cfg now s hmw path method headers params body r
    hfind hns hpass
  refine ⟨?_, ?_, ?_⟩
  · intro hnone
    rw [hchain, authMiddleware_missing_header cfg now _ r.action hauthctx hnone]
  · intro token e hsome herr
    rw [hchain, authMiddleware_invalid_token cfg now _ r.action token e hauthctx hsome herr]
  · intro token claims hsome hok
    rw [hchain, authMiddleware_valid_token cfg now _ r.action token claims hauthctx hsome hok]

/-- The `routes::home` handler of `examples/authentication.rs`. -/
def homeAction : ActionFn := fun ctx =>
  match ctx.user with
  | some user => ([], .Ok s!"Hello, {user.name}!")
  | none => ([], .Ok "Hello, anonymous!")

/-- The `GET /` route of `examples/authentication.rs`, guarded by
`Authorize`. -/
def c4Route : Route :=
  { path := "/", action := homeAction, rules := [.Authorize], method := .GET }

/-- The server of `examples/authentication.rs`, restricted to its `GET /`
route: default logging middleware, the authentication middleware with secret
`"123456789"`, and the guarded route. -/
def c4Server : Server :=
  (Server.new.add_middleware (authMiddleware { secret := "123456789" } 0)).add_route
    "/" homeAction .GET [.Authorize]

/-- A token for subject `"alice"` with role `"user"`, issued at time 0 with
a 60-second time-to-live by the example's secret. -/
def c4Token : Token :=
  AuthConfig.generate_token { secret := "123456789" } "alice" ["user"] 60 0

/-- Witness for C4: with no `Authorization` header the example server
answers `UnAuthorized "Missing token"`; with a freshly issued token for
`"alice"` it answers `Ok "Hello, alice!"`. -/
theorem C4_require_authentication_witness :
    (c4Server.dispatch "/" .GET [] [] []).2 = .UnAuthorized "Missing token"
    ∧ (c4Server.dispatch "/" .GET [("Authorization", c4Token)] [] []).2 =
        .Ok "Hello, alice!" := by
  have h1 := C4_require_authentication { secret := "123456789" } 0 c4Server rfl
    "/" .GET [] [] [] c4Route rfl (by decide) rfl (by decide)
  have h2 := C4_require_authentication { secret := "123456789" } 0 c4Server rfl
    "/" .GET [("Authorization", c4Token)] [] [] c4Route rfl (by decide) rfl (by decide)
  refine ⟨h1.1 rfl, ?_⟩
  have h3 := h2.2.2 c4Token { sub := "alice", roles := ["user"], exp := 60 } rfl rfl
  exact h3.trans (by decide)

/-- C5 counterexample: the claim fails on the code.  A route carrying both
`AllowAnonymous` and `Authorize` still triggers authentication — with no
`Authorization` header the example server answers
`UnAuthorized "Missing token"`, because the authentication middleware only
tests for `Authorize` and never consults `AllowAnonymous`. -/
def anonAction : ActionFn := fun _ => (["anon handler ran"], .Ok "anon")

/-- A server with the example's middleware stack and one route carrying both
`AllowAnonymous` and `Authorize`. -/
def c5Server : Server :=
  (Server.new.add_middleware (authMiddleware { secret := "123456789" } 0)).add_route
    "/both" anonAction .GET [.AllowAnonymous, .Authorize]

/-- C5 counterexample: a route carrying `AllowAnonymous` (together with
`Authorize`) does produce `UnAuthorized` on a request with no
`Authorization` header, contradicting the claim that `AllowAnonymous`
short-circuits authentication. -/
theorem C5_counterexample :
    (c5Server.dispatch "/both" .GET [] [] []).2 = .UnAuthorized "Missing token" := by
  decide

/-- C5 amended: authentication is governed solely by the `Authorize` rule.
A route carrying `AllowAnonymous` whose rules do not also contain
`Authorize` skips authentication entirely — the middleware passes the
context through unchanged, so it never produces an `Unauthorized` response
even with no `Authorization` header.  When `Authorize` is also present,
authentication is still enforced (`AllowAnonymous` is never consulted). -/
theorem C5_amended_anonymous_skips_auth (cfg : AuthConfig) (now : Nat)
    (ctx : RequestContext) (next : ActionFn)
    (hanon : RouteRules.AllowAnonymous ∈ ctx.rules)
    (hnoauth : RouteRules.Authorize ∉ ctx.rules) :
    authMiddleware cfg now ctx next = next ctx := by
  have hc : ctx.rules.contains RouteRules.Authorize = false := by simpa using hnoauth
  simp only [authMiddleware, hc]
  simp

/-- A request context for an anonymous route, used by the C5 witness. -/
def c5AnonCtx : RequestContext :=
  { params := [], headers := [], path := "/login", body := [], method := .POST,
    rules := [.AllowAnonymous], user := none }

/-- Witness for the amended C5 at a concrete anonymous context. -/
theorem C5_amended_anonymous_skips_auth_witness :
    authMiddleware { secret := "123456789" } 0 c5AnonCtx anonAction =
      anonAction c5AnonCtx :=
  C5_amended_anonymous_skips_auth { secret := "123456789" } 0 c5AnonCtx anonAction
    (by decide) (by decide)

theorem checkRules_reject_of_exceed (path : String) (body : List Nat)
    (rules : List RouteRules) (n : Nat)
    (hmem : RouteRules.RequestSizeLimit n ∈ rules)
    (huniq : ∀ m, RouteRules.RequestSizeLimit m ∈ rules → m = n)
    (hlen : n < body.length) :
    checkRules path body rules = some (.PayloadTooLarge (sizeExceededMsg path n)) := by
  induction rules with
  | nil => cases hmem
  | cons rule rest ih =>
    cases rule with
    | RequestSizeLimit m =>
      have hm : m = n := huniq m (List.mem_cons_self _ _)
      subst hm
      simp [checkRules, hlen]
    | Authorize =>
      have hmem2 : RouteRules.RequestSizeLimit n ∈ rest := by
        rcases List.mem_cons.mp hmem with h | h
        · exact absurd h (by simp)
        · exact h
      simpa [checkRules] using
        ih hmem2 (fun m hm => huniq m (List.mem_cons_of_mem _ hm))
    | AllowAnonymous =>
      have hmem2 : RouteRules.RequestSizeLimit n ∈ rest := by
        rcases List.mem_cons.mp hmem with h | h
        · exact absurd h (by simp)
        · exact h
      simpa [checkRules] using
        ih hmem2 (fun m hm => huniq m (List.mem_cons_of_mem _ hm))
    | Roles roles =>
      have hmem2 : RouteRules.RequestSizeLimit n ∈ rest := by
        rcases List.mem_cons.mp hmem with h | h
        · exact absurd h (by simp)
        · exact h
      simpa [checkRules] using
        ih hmem2 (fun m hm => huniq m (List.mem_cons_of_mem _ hm))

theorem checkRules_pass_of_within (path : String) (body : List Nat)
    (rules : List RouteRules)
    (h : ∀ m, RouteRules.RequestSizeLimit m ∈ rules → body.length ≤ m) :
    checkRules path body rules = none := by
  induction rules with
  | nil => rfl
  | cons rule rest ih =>
    cases rule with
    | RequestSizeLimit m =>
      have hng : ¬ body.length > m := not_lt.mpr (h m (List.mem_cons_self _ _))
      have hrest := ih (fun k hk => h k (List.mem_cons_of_mem _ hk))
      simp [checkRules, hng, hrest]
    | Authorize =>
      simpa [checkRules] using ih (fun k hk => h k (List.mem_cons_of_mem _ hk))
    | AllowAnonymous =>
      simpa [checkRules] using ih (fun k hk => h k (List.mem_cons_of_mem _ hk))
    | Roles roles =>
      simpa [checkRules] using ih (fun k hk => h k (List.mem_cons_of_mem _ hk))

/-- C6: for a matched route whose only size rule is `RequestSizeLimit n`, a
request whose body is longer than `n` bytes is rejected with
`PayloadTooLarge` carrying the message that contains the route path and the
limit `n`; a body of exactly `n` bytes passes the size check and dispatch
proceeds to the middleware chain.  The rejection is produced before the
middleware chain is consulted, with `s.middlewares` arbitrary — in
particular it happens regardless of what any authentication middleware would
have decided. -/
theorem C6_max_body_size (s : Server) (ctx : RequestContext) (r : Route) (n : Nat)
    (hfind : findRoute s.routes ctx.path ctx.method = some r)
    (hns : r.method ≠ .NotSupported)
    (hmem : RouteRules.RequestSizeLimit n ∈ r.rules)
    (huniq : ∀ m, RouteRules.RequestSizeLimit m ∈ r.rules → m = n) :
    (n < ctx.body.length →
      s.handle_request ctx = ([], .PayloadTooLarge (sizeExceededMsg r.path n)))
    ∧ (ctx.body.length = n →
        s.handle_request ctx = composeMiddlewares s.middlewares r.action ctx) := by
  constructor
  · intro hlen
    exact handle_request_of_reject s ctx r _ hfind hns
      (checkRules_reject_of_exceed r.path ctx.body r.rules n hmem huniq hlen)
  · intro hlen
    refine handle_request_of_pass s ctx r hfind hns ?_
    exact checkRules_pass_of_within r.path ctx.body r.rules
      (fun m hm => by rw [huniq m hm, ← hlen])

/-- A handler for the size-limited demo route. -/
def uploadAction : ActionFn := fun _ => (["upload handler ran"], .Ok "uploaded")

/-- A server with one `POST /upload` route limited to 2-byte bodies. -/
def c6Server : Server :=
  Server.new.add_route "/upload" uploadAction .POST [.RequestSizeLimit 2]

/-- The size-limited route registered by `c6Server`. -/
def c6Route : Route :=
  { path := "/upload", action := uploadAction, rules := [.RequestSizeLimit 2],
    method := .POST }

/-- A request context for `POST /upload` with the given body. -/
def c6Ctx (body : List Nat) : RequestContext :=
  { params := [], headers := [], path := "/upload", body := body,
    method := .POST, rules := [.RequestSizeLimit 2], user := none }

/-- Witness for C6: a 3-byte body against the 2-byte limit is rejected with
the path-and-limit message, while a 2-byte body reaches the middleware
chain. -/
theorem C6_max_body_size_witness :
    c6Server.handle_request (c6Ctx [1, 2, 3]) =
      ([], .PayloadTooLarge (sizeExceededMsg "/upload" 2))
    ∧ c6Server.handle_request (c6Ctx [1, 2]) =
        composeMiddlewares c6Server.middlewares c6Route.action (c6Ctx [1, 2]) := by
  have huniq : ∀ m, RouteRules.RequestSizeLimit m ∈ c6Route.rules → m = 2 := by
    intro m hm
    simp [c6Route] at hm
    exact hm
  have h1 := C6_max_body_size c6Server (c6Ctx [1, 2, 3]) c6Route 2 rfl (by decide)
    (by decide) huniq
  have h2 := C6_max_body_size c6Server (c6Ctx [1, 2]) c6Route 2 rfl (by decide)
    (by decide) huniq
  exact ⟨h1.1 (by decide), h2.2 rfl⟩

/-- The handler of the role-guarded demo route. -/
def secretAction : ActionFn := fun _ => (["secret handler ran"], .Ok "secret")

/-- A server with the example's middleware stack and a `GET /admin` route
carrying `Authorize` and `Roles ["admin"]`. -/
def c8Server : Server :=
  (Server.new.add_middleware (authMiddleware { secret := "123456789" } 0)).add_route
    "/admin" secretAction .GET [.Authorize, .Roles ["admin"]]

/-- A valid token for subject `"bob"` whose only role is `"user"` — disjoint
from the required role set `["admin"]`. -/
def c8Token : Token :=
  encode { sub := "bob", roles := ["user"], exp := 1000 } "123456789"

/-- C8 counterexample: the claim fails on the code.  A request to a route
carrying `Roles ["admin"]`, with a verified identity whose role set
`["user"]` does not intersect `["admin"]`, is *not* rejected with
`Forbidden`: the handler runs (its trace line appears) and its result is
returned, because no code in the dispatcher or in the example middleware
ever evaluates the `Roles` rule. -/
theorem C8_counterexample :
    (c8Server.dispatch "/admin" .GET [("Authorization", c8Token)] [] []).2 =
      .Ok "secret"
    ∧ "secret handler ran" ∈
        (c8Server.dispatch "/admin" .GET [("Authorization", c8Token)] [] []).1 := by
  constructor
  · decide
  · decide

/-- C8 amended: the `Roles` rule is never evaluated.  For a matched,
size-passing route carrying both `Authorize` and `Roles required`, a request
whose token verifies to an identity whose role set is disjoint from
`required` still has the route's handler invoked on the identity-enriched
context, and the dispatch result is the handler's result — `Forbidden` is
never produced by the dispatcher or the authentication middleware. -/
theorem C8_amended_roles_never_checked (cfg : AuthConfig) (now : Nat) (s : Server)
    (hmw : s.middlewares = [loggingMiddleware, authMiddleware cfg now])
    (path : String) (method : HttpMethod) (headers : List (String × Token))
    (params : List (String × String)) (body : List Nat) (r : Route)
    (required : List String)
    (hfind : findRoute s.routes path method = some r)
    (hns : r.method ≠ .NotSupported)
    (hpass : checkRules r.path body r.rules = none)
    (hroles : RouteRules.Roles required ∈ r.rules)
    (hauth : RouteRules.Authorize ∈ r.rules)
    (token : Token) (claims : Claims)
    (hsome : lookupHeader headers "Authorization" = some token)
    (hok : cfg.validate_token token now = .ok claims)
    (hdisj : ∀ role ∈ claims.roles, role ∉ required) :
    (s.dispatch path method headers params body).2 =
      (r.action { s.mkContext path method headers params body with
          user := some { name := claims.sub, roles := claims.roles } }).2 := by
  have hauthctx :
      RouteRules.Authorize ∈ (s.mkContext path method headers params body).rules := by
    rw [mkContext_rules s path method headers params body r hfind]
    exact hauth
  rw [dispatch_auth_chain cfg now s hmw path method headers params body r hfind hns hpass,
    authMiddleware_valid_token cfg now _ r.action token claims hauthctx hsome hok]

/-- Witness for the amended C8: on the concrete `/admin` route, `"bob"`
(role `"user"`, required set `["admin"]`) still reaches the handler. -/
theorem C8_amended_roles_never_checked_witness :
    (c8Server.dispatch "/admin" .GET [("Authorization", c8Token)] [] []).2 =
      (secretAction { c8Server.mkContext "/admin" .GET
          [("Authorization", c8Token)] [] [] with
        user := some { name := "bob", roles := ["user"] } }).2 :=
  C8_amended_roles_never_checked { secret := "123456789" } 0 c8Server rfl
    "/admin" .GET [("Authorization", c8Token)] [] []
    { path := "/admin", action := secretAction,
      rules := [.Authorize, .Roles ["admin"]], method := .GET }
    ["admin"] rfl (by decide) rfl (by decide) (by decide)
    c8Token { sub := "bob", roles := ["user"], exp := 1000 } rfl rfl (by decide)

/-- The handler of the C9 demo route (it would announce itself if run). -/
def c9Action : ActionFn := fun _ => (["c9 handler ran"], .Ok "c9")

/-- A fresh server (so its only middleware is the default logging one) with a
route whose body size limit is 0. -/
def c9Server : Server :=
  Server.new.add_route "/limited" c9Action .GET [.RequestSizeLimit 0]

/-- C9 counterexample: the claim fails on the code.  On a rule rejection the
dispatch result is returned with an *empty* trace: the default logging
middleware — which always emits `"--- Incoming Request ---"` when invoked —
never runs, so it does not observe the rejection outcome.  The rule loop
returns before the middleware chain is composed. -/
theorem C9_counterexample :
    c9Server.dispatch "/limited" .GET [] [] [0] =
      ([], .PayloadTooLarge (sizeExceededMsg "/limited" 0)) := by
  decide

/-- C9 amended: any rule rejection short-circuits the handler and *all*
middlewares, including the default logging middleware: whatever the
middleware list is, the rejected request's outcome is the rejection with an
empty trace, so no middleware (logging included) is invoked or observes it. -/
theorem C9_amended_rejection_skips_all_middlewares (s : Server)
    (ctx : RequestContext) (r : Route) (res : ActionResult)
    (hfind : findRoute s.routes ctx.path ctx.method = some r)
    (hns : r.method ≠ .NotSupported)
    (hrej : checkRules r.path ctx.body r.rules = some res) :
    ∀ mws : List MiddlewareFn,
      ({ s with middlewares := mws }).handle_request ctx = ([], res) := by
  intro mws
  exact handle_request_of_reject { s with middlewares := mws } ctx r res hfind hns hrej

/-- Witness for the amended C9 at the concrete zero-limit route, with the
default logging middleware installed. -/
theorem C9_amended_rejection_skips_all_middlewares_witness :
    ({ c9Server with middlewares := [loggingMiddleware] }).handle_request
        (c9Server.mkContext "/limited" .GET [] [] [0]) =
      ([], .PayloadTooLarge (sizeExceededMsg "/limited" 0)) :=
  C9_amended_rejection_skips_all_middlewares c9Server
    (c9Server.mkContext "/limited" .GET [] [] [0])
    { path := "/limited", action := c9Action, rules := [.RequestSizeLimit 0],
      method := .GET }
    (.PayloadTooLarge (sizeExceededMsg "/limited" 0))
    rfl (by decide) (by decide) [loggingMiddleware]

end RustMVC
